import Mathlib

/-!
Verification development for the celloapi2 repository
(src/cello_api/celloapi.py). Python functions are shallowly embedded as
Lean definitions over lists, strings, rationals and explicit error values.
Floating point numbers are modelled as exact rationals; the special IEEE
outcomes that the code can produce (infinity, NaN) are modelled as explicit
constructors where they matter for the claims.
-/

namespace Cello

/-! ## String helpers (models of the Python string builtins used by the code) -/

/-- Model of Python `s.split(sep)` for a single-character separator, on the
character list of a string.  Python keeps empty chunks: `"a__b".split("_")`
is `["a", "", "b"]` and `"".split("_")` is `[""]`. -/
def splitChar (c : Char) : List Char → List (List Char)
  | [] => [[]]
  | a :: as =>
    let r := splitChar c as
    if a = c then [] :: r
    else
      match r with
      | h :: t => (a :: h) :: t
      | [] => [[a]]

/-- Boolean prefix test on character lists. -/
def prefixOf : List Char → List Char → Bool
  | [], _ => true
  | _ :: _, [] => false
  | a :: as, b :: bs => a == b && prefixOf as bs

/-- Boolean contiguous-substring test on character lists; models Python
`pat in s`. -/
def infixOf : List Char → List Char → Bool
  | pat, [] => pat.isEmpty
  | pat, b :: bs => prefixOf pat (b :: bs) || infixOf pat bs

/-- Model of `dirty_data.replace("\t", "")` in `_fix_input_json`
(celloapi.py line 54): remove every tab character. -/
def stripTabs (s : String) : String := String.mk (s.data.filter (fun c => c != '\t'))

/-- Model of Python `s.rfind(",")`: the index of the last comma, or -1 when
the string has no comma. -/
def lastCommaIdx : List Char → Int
  | [] => -1
  | c :: cs =>
    let r := lastCommaIdx cs
    if 0 ≤ r then r + 1
    else if c = ',' then 0 else -1

/-- Model of the Python prefix slice `s[:i]`, including the negative-index
convention: for `i < 0` the slice keeps `len(s) + i` characters (clamped at
zero). -/
def pySlicePrefix (l : List Char) (i : Int) : List Char :=
  if 0 ≤ i then l.take i.toNat else l.take (l.length - (-i).toNat)

/-- The text transformation performed by `_fix_input_json`
(celloapi.py lines 52-60) before handing the text to the parser:
strip all tabs; when `final_trailing_comma` is set, slice the text at
`rfind(",")`, which removes the last comma AND every character after it
(and, when there is no comma at all, drops the final character because
`rfind` returns -1). -/
def fix_input_text (s : String) (final_trailing_comma : Bool) : String :=
  let d := stripTabs s
  if final_trailing_comma then String.mk (pySlicePrefix d.data (lastCommaIdx d.data)) else d

/-! ## A small structured-text parser

Modelled from the spec: the source feeds the repaired text to the external
library call `yaml.load` (celloapi.py line 61), which is not part of this
repository; the spec describes it as "a permissive structured-text parser
(a JSON-compatible superset grammar)".  The fragment modelled here (decimal
numbers and flow sequences) is what the claims about the reader need. -/

/-- A parsed document node: a number or a sequence. -/
inductive Doc where
  | num (q : ℚ)
  | arr (elems : List Doc)
deriving Repr

/-- Skip JSON-ish whitespace. -/
def skipWs (cs : List Char) : List Char :=
  cs.dropWhile (fun c => c == ' ' || c == '\n' || c == '\t' || c == '\r')

/-- Decimal digits to a natural number. -/
def digitsToNat (ds : List Char) : Nat :=
  ds.foldl (fun n c => 10 * n + (c.toNat - '0'.toNat)) 0

/-- Parse an unsigned decimal number prefix: digits with an optional
fractional part.  Returns the value and the remaining input. -/
def parseUNumber (cs : List Char) : Option (ℚ × List Char) :=
  let ds := cs.takeWhile Char.isDigit
  let r := cs.dropWhile Char.isDigit
  if ds.isEmpty then none
  else
    match r with
    | '.' :: r2 =>
      let fs := r2.takeWhile Char.isDigit
      let r3 := r2.dropWhile Char.isDigit
      if fs.isEmpty then none
      else some ((digitsToNat ds : ℚ) + (digitsToNat fs : ℚ) / (10 : ℚ) ^ fs.length, r3)
    | _ => some ((digitsToNat ds : ℚ), r)

/-- Parse an optionally signed decimal number prefix. -/
def parseNumber (cs : List Char) : Option (ℚ × List Char) :=
  match cs with
  | '-' :: rest => (parseUNumber rest).map (fun p => (-p.1, p.2))
  | _ => parseUNumber cs

/-- Fuel-driven recursive-descent parser.  `mode = false` parses one value;
`mode = true` parses the element list of a sequence up to and including the
closing bracket.  The fuel only bounds the recursion depth; `parseDoc`
supplies enough fuel for its input. -/
def parseVD : Nat → Bool → List Char → Option (Doc × List Char)
  | 0, _, _ => none
  | fuel + 1, false, cs =>
    match skipWs cs with
    | '[' :: rest =>
      (match skipWs rest with
       | ']' :: r2 => some (.arr [], r2)
       | r => parseVD fuel true r)
    | cs2 => (parseNumber cs2).map (fun p => (Doc.num p.1, p.2))
  | fuel + 1, true, cs =>
    match parseVD fuel false cs with
    | none => none
    | some (d, r) =>
      match skipWs r with
      | ',' :: r2 =>
        (match parseVD fuel true r2 with
         | some (Doc.arr es, r3) => some (.arr (d :: es), r3)
         | _ => none)
      | ']' :: r2 => some (.arr [d], r2)
      | _ => none

/-- Parse a whole document: one value followed only by whitespace. -/
def parseDoc (s : String) : Option Doc :=
  match parseVD (2 * s.data.length + 4) false s.data with
  | some (d, r) => if (skipWs r).isEmpty then some d else none
  | none => none

/-! ## Model of Python `float(str)`

Modelled from the Python builtin used at celloapi.py line 236: strips
surrounding whitespace, then accepts an optionally signed decimal literal;
anything else raises `ValueError` (here: `none`). -/

/-- Python whitespace characters stripped by `float`. -/
def isPyWs (c : Char) : Bool :=
  c == ' ' || c == '\t' || c == '\n' || c == '\r' || c == '\x0b' || c == '\x0c'

/-- Strip leading and trailing Python whitespace. -/
def pyStrip (cs : List Char) : List Char :=
  ((cs.dropWhile isPyWs).reverse.dropWhile isPyWs).reverse

/-- Model of `float(s)`: `some` value on an optionally signed decimal
literal (after stripping whitespace), `none` for the `ValueError` case. -/
def pyFloat? (s : String) : Option ℚ :=
  match parseNumber (pyStrip s.data) with
  | some (q, []) => some q
  | _ => none

/-! ## Scoring (`CelloResult.score_repressors`, celloapi.py lines 169-205)

`logic_dict` maps node labels to rows of booleans, `activity_dict` maps the
same labels to rows of numbers.  Both are modelled as association lists in
insertion order (Python dicts preserve insertion order).  Activity values
are numpy float64 scalars in the source; they are modelled as exact
rationals, with the IEEE special outcomes of `low_on / high_off` at
`high_off = 0` (infinity / NaN, which numpy produces without raising)
represented by dedicated constructors. -/

/-- The exceptions that `score_repressors` can raise.
`keysMismatch` is the RuntimeError at lines 181-183; `emptyMin` and
`emptyMax` are the ValueError raised by `min()`/`max()` on an empty
sequence (lines 193-202); `indexErr` is the IndexError from
`truth_table[idx]` when an activity row is longer than its truth row;
`logDomain` is the ValueError raised by `math.log` on a non-positive
argument (line 203). -/
inductive CelloErr where
  | keysMismatch
  | emptyMin
  | emptyMax
  | indexErr
  | logDomain
deriving DecidableEq, Repr

/-- The value stored in `score_dict` for one repressor key.
`finite lo hi` stands for the float `math.log(lo / hi)` with
`lo = low_on`, `hi = high_off` and `lo / hi` positive (the pair is kept
unreduced so that concrete runs stay kernel-computable); `infScore` is the
float `inf` that numpy produces for `low_on / 0.0` with `low_on > 0` (and
`math.log(inf) = inf`); `nanScore` is the NaN produced for `0.0 / 0.0`
(and `math.log(nan) = nan`). -/
inductive ScoreVal where
  | finite (lo hi : ℚ)
  | infScore
  | nanScore
deriving DecidableEq, Repr

/-- The real number a stored score denotes, when it denotes one:
`finite lo hi` is the float `math.log(low_on / high_off)`, i.e.
`Real.log (lo / hi)`. -/
noncomputable def ScoreVal.denote : ScoreVal → Option ℝ
  | .finite lo hi => some (Real.log ((lo / hi : ℚ) : ℝ))
  | .infScore => none
  | .nanScore => none

/-- The list comprehension
`[i for idx, i in enumerate(activity_values) if truth_table[idx]]`
(lines 193-195), for the in-range case: activity values at true positions. -/
def onVals (truth : List Bool) (act : List ℚ) : List ℚ :=
  (act.zip truth).filterMap (fun p => if p.2 then some p.1 else none)

/-- The off-value comprehension (lines 196-202): activity values at false
positions. -/
def offVals (truth : List Bool) (act : List ℚ) : List ℚ :=
  (act.zip truth).filterMap (fun p => if p.2 then none else some p.1)

/-- Binary minimum on rationals; ties keep the left argument, as Python
`min` keeps the first minimal element. -/
def qmin (a b : ℚ) : ℚ := if a ≤ b then a else b

/-- Binary maximum on rationals; ties keep the left argument. -/
def qmax (a b : ℚ) : ℚ := if a ≤ b then b else a

/-- Model of Python `min(list)`: `none` for the ValueError on an empty
list. -/
def listMin : List ℚ → Option ℚ
  | [] => none
  | x :: xs => some (xs.foldl qmin x)

/-- Model of Python `max(list)`. -/
def listMax : List ℚ → Option ℚ
  | [] => none
  | x :: xs => some (xs.foldl qmax x)

/-- The sign test `0 < lo / hi` expressed without rational division (the
two are proved equivalent in `ratioPos_iff` below); this is the domain
condition of `math.log` on the finite quotient `low_on / high_off`. -/
def ratioPos (lo hi : ℚ) : Bool :=
  (decide (0 < lo) && decide (0 < hi)) || (decide (lo < 0) && decide (hi < 0))

/-- The body of the scoring loop (lines 190-204) for one repressor key:
compute `low_on` and `high_off` and the stored score, or the exception the
iteration raises.  The branch structure follows the source evaluation
order: the on-comprehension raises IndexError when the activity row is
longer than the truth row; `min`/`max` of an empty subset raise ValueError;
`low_on / high_off` follows numpy float64 semantics at `high_off = 0`
(±infinity or NaN instead of an exception), after which `math.log` raises
ValueError exactly on non-positive finite arguments and on -infinity. -/
def scoreKey (truth : List Bool) (act : List ℚ) : Except CelloErr ScoreVal :=
  if truth.length < act.length then .error .indexErr
  else
    match listMin (onVals truth act) with
    | none => .error .emptyMin
    | some lo =>
      match listMax (offVals truth act) with
      | none => .error .emptyMax
      | some hi =>
        if hi = 0 then
          if 0 < lo then .ok .infScore
          else if lo = 0 then .ok .nanScore
          else .error .logDomain
        else if ratioPos lo hi then .ok (.finite lo hi)
        else .error .logDomain

/-- The keys of an association list, in insertion order. -/
def keysOf {α : Type} (d : List (String × α)) : List String := d.map Prod.fst

/-- Model of Python `logic_dict.keys() == activity_dict.keys()`: dict key
views compare as sets. -/
def keySetEq (xs ys : List String) : Bool :=
  xs.all (fun x => ys.contains x) && ys.all (fun y => xs.contains y)

/-- The filter `lambda x: x[0] == "$"` (line 188): a key whose first
character is the repressor sentinel.  (Python would raise on an empty key;
keys read from the CSV are never empty.) -/
def strHeadDollar (k : String) : Bool :=
  match k.data with
  | [] => false
  | c :: _ => c == '$'

/-- The scoring loop over the repressor keys (lines 190-204): the first
raised exception aborts the whole call; otherwise each key is mapped to its
stored score in iteration order. -/
def goScore (l : List (String × List Bool)) (a : List (String × List ℚ)) :
    List String → Except CelloErr (List (String × ScoreVal))
  | [] => .ok []
  | k :: ks =>
    match scoreKey ((l.lookup k).getD []) ((a.lookup k).getD []) with
    | .error e => .error e
    | .ok v =>
      match goScore l a ks with
      | .error e => .error e
      | .ok rest => .ok ((k, v) :: rest)

/-- `CelloResult.score_repressors` (lines 169-205): check that the two key
sets match, filter the repressor keys, score each one. -/
def score_repressors (l : List (String × List Bool)) (a : List (String × List ℚ)) :
    Except CelloErr (List (String × ScoreVal)) :=
  if keySetEq (keysOf l) (keysOf a) then goScore l a ((keysOf l).filter strHeadDollar)
  else .error .keysMismatch

/-! ## Netlist name resolver
(`CelloResult._map_symbolic_representation_to_true_name`, lines 138-167) -/

/-- One entry of the netlist `nodes` sequence.  `payload` stands for the
remaining fields of the JSON object. -/
structure NetNode where
  name : String
  deviceName : String
  payload : String
deriving DecidableEq, Repr

/-- The inner loop of lines 163-166 for one key: every matching node
overwrites `out_mapping[key]`, so the device name recorded at the end is
the one of the LAST matching node; `none` when no node matches. -/
def lastMatchDevice (k : String) (nodes : List NetNode) : Option String :=
  nodes.foldl (fun acc n => if k = n.name then some n.deviceName else acc) none

/-- Lines 161-167: build `out_mapping` over the given keys in order; keys
without a matching node are absent from the result. -/
def map_symbolic (keys : List String) (nodes : List NetNode) : List (String × String) :=
  keys.filterMap (fun k => (lastMatchDevice k nodes).map (fun d => (k, d)))

/-! ## Log score extractor (`CelloResult._parse_log_file`, lines 218-242) -/

/-- The exceptions of `_parse_log_file`: `scoreNotFound` is the
RuntimeError at lines 240-242; `valueError` is the ValueError `float`
raises when the last space-separated chunk is not a float literal. -/
inductive LogErr where
  | valueError
  | scoreNotFound
deriving DecidableEq, Repr

/-- The marker string searched for at line 235. -/
def logMarker : String := "SimulatedAnnealing - Score:"

/-- `"SimulatedAnnealing - Score:" in line` (line 235). -/
def containsMarker (line : String) : Bool := infixOf logMarker.data line.data

/-- `line.split(" ")[-1]` (line 236): the last chunk of a split on single
spaces.  Note the split is on the space character only, and lines iterated
from a file keep their trailing newline. -/
def lastSpaceTok (line : String) : String :=
  String.mk ((splitChar ' ' line.data).getLastD [])

/-- `_parse_log_file` on the lines of the located log file (lines
233-242): return the float parsed from the last space-chunk of the FIRST
line containing the marker; raise when no line matches or when `float`
fails. -/
def parse_log_file (lines : List String) : Except LogErr ℚ :=
  match lines.find? containsMarker with
  | some line =>
    match pyFloat? (lastSpaceTok line) with
    | some q => .ok q
    | none => .error .valueError
  | none => .error .scoreNotFound

/-! ## File locators (lines 117-125, 151-159, 228-232) -/

/-- The two locator error messages: `missingFile` is
"Unable to find ...", `ambiguousFile` is "Found multiple results matching
pattern.". -/
inductive LocErr where
  | missingFile
  | ambiguousFile
deriving DecidableEq, Repr

/-- The locator of `_parse_result_csv` (lines 117-125), applied to the
glob matches: `if not in_file` raises the missing-file error, then
`if len(in_file) - 1` raises the multiple-match error, else the single
match is used. -/
def locate_result_csv (files : List String) : Except LocErr String :=
  match files with
  | [] => .error .missingFile
  | f :: rest => if rest.isEmpty then .ok f else .error .ambiguousFile

/-- The locator of `_parse_log_file` (lines 228-232): it has NO zero-match
branch, only `if len(in_file) - 1`, and `len(in_file) - 1` is `-1` (truthy)
for an empty match list, so zero matches raise the multiple-match error. -/
def locate_log (files : List String) : Except LocErr String :=
  if (files.length : Int) - 1 ≠ 0 then .error .ambiguousFile
  else .ok (files.headD "")

/-! ## Input-signal reading and pruning
(`CelloQuery.get_input_signals` lines 345-364 and
`CelloQuery.set_input_signals` lines 366-422) -/

/-- One entry of the sensor input JSON (a relaxed-JSON sequence of
mappings).  `payload` stands for the fields other than `collection` and
`name`. -/
structure SensorRow where
  collection : String
  name : String
  payload : String
deriving DecidableEq, Repr

/-- `raw_name.split("_")[0]` (line 363): the prefix before the first
underscore. -/
def firstField (s : String) : String := String.mk ((splitChar '_' s.data).headD [])

/-- `CelloQuery.get_input_signals` (lines 345-364) on the loaded sensor
document: the name prefixes of the rows whose `collection` is
`"input_sensors"`, in document order. -/
def get_input_signals (doc : List SensorRow) : List String :=
  doc.filterMap (fun r =>
    if r.collection = "input_sensors" then some (firstField r.name) else none)

/-- Model of Python `list.remove(x)`: delete the first element equal to
`x`. -/
def eraseFirst : List SensorRow → SensorRow → List SensorRow
  | [], _ => []
  | a :: as, x => if a = x then as else a :: eraseFirst as x

/-- The `for row in in_data: ... in_data.remove(row)` loop of
`_prune_other_sensors` (lines 394-397), with Python's iterator semantics:
the iterator keeps an index into the mutated list, so removing the current
element shifts the next element into the current slot and the iterator
SKIPS it.  The fuel is an upper bound on the number of iterations (the
index grows by one per step and the list never grows, so `l.length` steps
always suffice). -/
def pruneLoopF (p : SensorRow → Bool) : Nat → List SensorRow → Nat → List SensorRow
  | 0, l, _ => l
  | fuel + 1, l, i =>
    if h : i < l.length then
      let row := l.get ⟨i, h⟩
      if p row then pruneLoopF p fuel (eraseFirst l row) (i + 1)
      else pruneLoopF p fuel l (i + 1)
    else l

/-- The query list built at lines 391-393: each selected signal with the
pass's suffix appended. -/
def queryList (suffix : String) (in_signals : List String) : List String :=
  in_signals.map (fun s => s ++ suffix)

/-- The removal condition of lines 395-396: the row belongs to the target
collection and its name is not among the queried names. -/
def shouldRemove (ql : List String) (tc : String) (r : SensorRow) : Bool :=
  r.collection == tc && !(ql.contains r.name)

/-- `_prune_other_sensors` (lines 385-398). -/
def prune_other_sensors (suffix tc : String) (in_data : List SensorRow)
    (in_signals : List String) : List SensorRow :=
  pruneLoopF (shouldRemove (queryList suffix in_signals) tc) in_data.length in_data 0

/-- The three pruning passes of lines 409-417. -/
def pruneAll (doc : List SensorRow) (sigs : List String) : List SensorRow :=
  prune_other_sensors "_sensor_structure" "structures"
    (prune_other_sensors "_sensor_model" "models"
      (prune_other_sensors "_sensor" "input_sensors" doc sigs) sigs) sigs

/-- `CelloQuery.set_input_signals` (lines 366-422) on the loaded sensor
document.  The validation loop of lines 400-405 raises (carrying the
offending signal) BEFORE the output file is opened for writing and before
`self.input_sensors` is reassigned, so the error case returns neither a
written document nor a new `input_sensors` value.  The success case
returns the pruned document that is written to `output_filename` as strict
JSON, together with the new `input_sensors` field (`output_filename` when
`mutate` is set, unchanged otherwise). -/
def set_input_signals (doc : List SensorRow) (input_signals : List String)
    (output_filename cur_sensors : String) (mutate : Bool) :
    Except String (List SensorRow × String) :=
  let available := get_input_signals doc
  match input_signals.find? (fun s => !(available.contains s)) with
  | some s => .error s
  | none =>
    .ok (pruneAll doc input_signals, if mutate then output_filename else cur_sensors)

/-! ## Helper lemmas -/

theorem beq_false_of_ne {α : Type} [BEq α] [LawfulBEq α] {a b : α} (h : a ≠ b) :
    (a == b) = false := by
  cases hab : a == b with
  | false => rfl
  | true => exact absurd (beq_iff_eq.mp hab) h

theorem ratioPos_iff (lo hi : ℚ) : ratioPos lo hi = true ↔ 0 < lo / hi := by
  rw [ratioPos, div_pos_iff]
  simp

theorem stripTabs_data (s : String) : (stripTabs s).data = s.data.filter (fun c => c != '\t') := rfl

theorem stripTabs_append_comma (t : String) :
    (stripTabs (t ++ ",")).data = (stripTabs t).data ++ [','] := by
  rw [stripTabs_data, stripTabs_data, String.data_append, List.filter_append]
  rfl

theorem lastCommaIdx_append_comma (xs : List Char) :
    lastCommaIdx (xs ++ [',']) = (xs.length : Int) := by
  induction xs with
  | nil => rfl
  | cons c cs ih =>
    rw [List.cons_append, lastCommaIdx, ih]
    rw [if_pos (Int.natCast_nonneg cs.length)]
    simp

theorem pySlicePrefix_natCast (l : List Char) (n : Nat) :
    pySlicePrefix l (n : Int) = l.take n := by
  rw [pySlicePrefix, if_pos (Int.natCast_nonneg n), Int.toNat_ofNat]

theorem fix_input_text_append_comma (t : String) :
    fix_input_text (t ++ ",") true = stripTabs t := by
  rw [fix_input_text]
  show String.mk (pySlicePrefix (stripTabs (t ++ ",")).data (lastCommaIdx (stripTabs (t ++ ",")).data)) = stripTabs t
  rw [stripTabs_append_comma, lastCommaIdx_append_comma, pySlicePrefix_natCast,
    List.take_left]

theorem lookup_some_mem_keysOf {α : Type} {l : List (String × α)} {k : String} {v : α}
    (h : l.lookup k = some v) : k ∈ keysOf l := by
  induction l with
  | nil => exact absurd h (by simp [List.lookup])
  | cons p ps ih =>
    obtain ⟨a, b⟩ := p
    rw [List.lookup_cons] at h
    cases hka : k == a with
    | true => exact (beq_iff_eq.mp hka) ▸ List.mem_cons_self k _
    | false => exact List.mem_cons_of_mem a (ih (by rw [hka] at h; exact h))

theorem goScore_ok_lookup (l : List (String × List Bool)) (a : List (String × List ℚ)) :
    ∀ (ks : List String) (scores : List (String × ScoreVal)),
      goScore l a ks = Except.ok scores → ks.Nodup →
      ∀ (k : String) (v : ScoreVal), k ∈ ks →
        scoreKey ((l.lookup k).getD []) ((a.lookup k).getD []) = Except.ok v →
        scores.lookup k = some v := by
  intro ks
  induction ks with
  | nil => intro scores _ _ k v hk; exact absurd hk (List.not_mem_nil k)
  | cons k1 ks1 ih =>
    intro scores hok hnd k v hk hv
    rw [goScore] at hok
    cases h1 : scoreKey ((l.lookup k1).getD []) ((a.lookup k1).getD []) with
    | error e => rw [h1] at hok; exact absurd hok (by simp)
    | ok v1 =>
      rw [h1] at hok
      cases h2 : goScore l a ks1 with
      | error e => rw [h2] at hok; exact absurd hok (by simp)
      | ok rest =>
        rw [h2] at hok
        have hscores : scores = (k1, v1) :: rest := by
          cases hok; rfl
        subst hscores
        rcases List.mem_cons.mp hk with hkk | hkk
        · subst hkk
          have : v1 = v := by
            rw [h1] at hv; cases hv; rfl
          subst this
          simp [List.lookup]
        · have hne : k ≠ k1 := by
            intro hkeq
            subst hkeq
            exact (List.nodup_cons.mp hnd).1 hkk
          rw [List.lookup_cons]
          rw [beq_false_of_ne hne]
          exact ih rest h2 (List.nodup_cons.mp hnd).2 k v hkk hv

theorem goScore_err_of_mem (l : List (String × List Bool)) (a : List (String × List ℚ)) :
    ∀ (ks : List String) (k : String), k ∈ ks →
      (∃ e, scoreKey ((l.lookup k).getD []) ((a.lookup k).getD []) = Except.error e) →
      ∃ e2, goScore l a ks = Except.error e2 := by
  intro ks
  induction ks with
  | nil => intro k hk; exact absurd hk (List.not_mem_nil k)
  | cons k1 ks1 ih =>
    intro k hk he
    cases h1 : scoreKey ((l.lookup k1).getD []) ((a.lookup k1).getD []) with
    | error e => exact ⟨e, by rw [goScore, h1]⟩
    | ok v1 =>
      have hne : k ≠ k1 := by
        intro hkeq
        subst hkeq
        obtain ⟨e, he⟩ := he
        rw [he] at h1
        exact Except.noConfusion h1
      have hk1 : k ∈ ks1 := by
        rcases List.mem_cons.mp hk with h | h
        · exact absurd h hne
        · exact h
      obtain ⟨e2, h2⟩ := ih k hk1 he
      exact ⟨e2, by rw [goScore, h1, h2]⟩

theorem scoreKey_error_of_all_true (truth : List Bool) (act : List ℚ)
    (ht : truth.all (fun b => b) = true) : ∃ e, scoreKey truth act = Except.error e := by
  by_cases hlen : truth.length < act.length
  · exact ⟨CelloErr.indexErr, by rw [scoreKey, if_pos hlen]⟩
  · have hoff : offVals truth act = [] := by
      rw [offVals, List.filterMap_eq_nil_iff]
      intro p hp
      have h2 : p.2 ∈ truth := (List.of_mem_zip hp).2
      have := List.all_eq_true.mp ht p.2 h2
      simp only [this]
      rfl
    cases hmin : listMin (onVals truth act) with
    | none => exact ⟨CelloErr.emptyMin, by rw [scoreKey, if_neg hlen, hmin]⟩
    | some lo =>
      refine ⟨CelloErr.emptyMax, ?_⟩
      rw [scoreKey, if_neg hlen, hmin, hoff]
      rfl

theorem lastMatchDevice_eq (k : String) (nodes : List NetNode) :
    lastMatchDevice k nodes =
      (nodes.reverse.find? (fun n => k == n.name)).map NetNode.deviceName := by
  rw [lastMatchDevice]
  induction nodes using List.reverseRecOn with
  | nil => rfl
  | append_singleton ys y ih =>
    rw [List.foldl_append, List.reverse_append]
    simp only [List.foldl_cons, List.foldl_nil, List.reverse_cons, List.reverse_nil,
      List.nil_append, List.cons_append, List.find?_cons]
    by_cases h : k = y.name
    · rw [if_pos h, beq_iff_eq.mpr h]
      rfl
    · rw [if_neg h, beq_false_of_ne h]
      exact ih

theorem lookup_map_symbolic_notmem (nodes : List NetNode) (k : String) :
    ∀ (keys : List String), k ∉ keys → (map_symbolic keys nodes).lookup k = none := by
  intro keys
  induction keys with
  | nil => intro _; rfl
  | cons k1 ks ih =>
    intro hk
    have hne : k ≠ k1 := fun h => hk (h ▸ List.mem_cons_self k1 ks)
    have hnk : k ∉ ks := fun h => hk (List.mem_cons_of_mem k1 h)
    rw [map_symbolic, List.filterMap_cons]
    cases h1 : (lastMatchDevice k1 nodes).map (fun d => (k1, d)) with
    | none => exact ih hnk
    | some p =>
      obtain ⟨d, -, hpd⟩ := Option.map_eq_some'.mp h1
      rw [← hpd, List.lookup_cons, beq_false_of_ne hne]
      exact ih hnk

theorem lookup_map_symbolic (nodes : List NetNode) (k : String) :
    ∀ (keys : List String), keys.Nodup → k ∈ keys →
      (map_symbolic keys nodes).lookup k = lastMatchDevice k nodes := by
  intro keys
  induction keys with
  | nil => intro _ hk; exact absurd hk (List.not_mem_nil k)
  | cons k1 ks ih =>
    intro hnd hk
    rw [map_symbolic, List.filterMap_cons]
    rcases List.mem_cons.mp hk with hkk | hkk
    · subst hkk
      cases h1 : lastMatchDevice k nodes with
      | none =>
        simp only [h1, Option.map_none']
        have : (map_symbolic ks nodes).lookup k = none :=
          lookup_map_symbolic_notmem nodes k ks (List.nodup_cons.mp hnd).1
        rw [map_symbolic] at this
        exact this
      | some d =>
        simp only [h1, Option.map_some']
        simp [List.lookup]
    · have hne : k ≠ k1 := by
        intro hkeq
        subst hkeq
        exact (List.nodup_cons.mp hnd).1 hkk
      cases h1 : (lastMatchDevice k1 nodes).map (fun d => (k1, d)) with
      | none => exact ih (List.nodup_cons.mp hnd).2 hkk
      | some p =>
        obtain ⟨d, -, hpd⟩ := Option.map_eq_some'.mp h1
        rw [← hpd, List.lookup_cons, beq_false_of_ne hne]
        exact ih (List.nodup_cons.mp hnd).2 hkk

theorem eraseFirst_sublist (l : List SensorRow) (x : SensorRow) :
    (eraseFirst l x).Sublist l := by
  induction l with
  | nil => exact List.Sublist.refl []
  | cons a as ih =>
    rw [eraseFirst]
    by_cases h : a = x
    · rw [if_pos h]
      exact List.Sublist.cons a (List.Sublist.refl as)
    · rw [if_neg h]
      exact List.Sublist.cons₂ a ih

theorem mem_eraseFirst_of_ne {v x : SensorRow} (hvx : v ≠ x) :
    ∀ l : List SensorRow, v ∈ eraseFirst l x ↔ v ∈ l := by
  intro l
  induction l with
  | nil => rfl
  | cons a as ih =>
    rw [eraseFirst]
    by_cases h : a = x
    · rw [if_pos h]
      constructor
      · exact List.mem_cons_of_mem a
      · intro hv
        rcases List.mem_cons.mp hv with hva | hva
        · exact absurd (hva.trans h) hvx
        · exact hva
    · rw [if_neg h]
      rw [List.mem_cons, List.mem_cons, ih]

theorem pruneLoopF_sublist (p : SensorRow → Bool) :
    ∀ (fuel : Nat) (l : List SensorRow) (i : Nat), (pruneLoopF p fuel l i).Sublist l := by
  intro fuel
  induction fuel with
  | zero => intro l i; exact List.Sublist.refl l
  | succ n ih =>
    intro l i
    rw [pruneLoopF]
    by_cases h : i < l.length
    · rw [dif_pos h]
      by_cases hp : p (l.get ⟨i, h⟩)
      · rw [if_pos hp]
        exact (ih (eraseFirst l (l.get ⟨i, h⟩)) (i + 1)).trans
          (eraseFirst_sublist l (l.get ⟨i, h⟩))
      · rw [if_neg hp]
        exact ih l (i + 1)
    · rw [dif_neg h]

theorem mem_pruneLoopF_of_not (p : SensorRow → Bool) {v : SensorRow} (hv : p v = false) :
    ∀ (fuel : Nat) (l : List SensorRow) (i : Nat), v ∈ pruneLoopF p fuel l i ↔ v ∈ l := by
  intro fuel
  induction fuel with
  | zero => intro l i; rfl
  | succ n ih =>
    intro l i
    rw [pruneLoopF]
    by_cases h : i < l.length
    · rw [dif_pos h]
      by_cases hp : p (l.get ⟨i, h⟩)
      · rw [if_pos hp]
        have hne : v ≠ l.get ⟨i, h⟩ := by
          intro hveq
          rw [hveq, hp] at hv
          exact Bool.true_eq_false.mp hv
        rw [ih (eraseFirst l (l.get ⟨i, h⟩)) (i + 1), mem_eraseFirst_of_ne hne]
      · rw [if_neg hp]
        exact ih l (i + 1)
    · rw [dif_neg h]

theorem pruneAll_sublist (doc : List SensorRow) (sigs : List String) :
    (pruneAll doc sigs).Sublist doc := by
  rw [pruneAll, prune_other_sensors, prune_other_sensors, prune_other_sensors]
  exact ((pruneLoopF_sublist _ _ _ _).trans (pruneLoopF_sublist _ _ _ _)).trans
    (pruneLoopF_sublist _ _ _ _)

theorem mem_pruneAll (doc : List SensorRow) (sigs : List String) {r : SensorRow}
    (h1 : shouldRemove (queryList "_sensor" sigs) "input_sensors" r = false)
    (h2 : shouldRemove (queryList "_sensor_model" sigs) "models" r = false)
    (h3 : shouldRemove (queryList "_sensor_structure" sigs) "structures" r = false)
    (hr : r ∈ doc) : r ∈ pruneAll doc sigs := by
  rw [pruneAll, prune_other_sensors, prune_other_sensors, prune_other_sensors]
  rw [mem_pruneLoopF_of_not _ h3, mem_pruneLoopF_of_not _ h2, mem_pruneLoopF_of_not _ h1]
  exact hr

deriving instance DecidableEq for Except

/-! ## Claims -/

/-- Claim C1, amended (the claim as stated is refuted by
`claim_C1_cex`): with `final_trailing_comma` set, the reader deletes the
last comma AND every character after it; when the trailing comma is the
final character of the text, the result is exactly the tab-stripped text
before that comma, so such a text parses whenever its tab-stripped prefix
parses. -/
theorem claim_C1_thm (t : String) (d : Doc) (h : parseDoc (stripTabs t) = some d) :
    fix_input_text (t ++ ",") true = stripTabs t ∧
    parseDoc (fix_input_text (t ++ ",") true) = some d :=
  ⟨fix_input_text_append_comma t, by rw [fix_input_text_append_comma t]; exact h⟩

/-- Witness for C1: the text `[1],` (trailing comma after the closing
delimiter) is repaired to `[1]`, which parses. -/
theorem claim_C1_witness :
    fix_input_text ("[1]" ++ ",") true = stripTabs "[1]" ∧
    parseDoc (fix_input_text ("[1]" ++ ",") true) = some (Doc.arr [Doc.num 1]) :=
  claim_C1_thm "[1]" (Doc.arr [Doc.num 1]) rfl

/-- Counterexample for C1 as stated: on `[1,2]` the reader does NOT
preserve the characters after the last comma (the claimed result would be
`[12]`, the actual result is `[1`), and on `[1,]` — a text ending in a
trailing comma followed by a closing delimiter — the repaired text does
not parse. -/
theorem claim_C1_cex :
    fix_input_text "[1,2]" true = "[1" ∧
    "[1" ≠ "[12]" ∧
    parseDoc (fix_input_text "[1,]" true) = none :=
  ⟨rfl, by decide, rfl⟩

/-- Claim C2 (confirmed): in a successful `score_repressors` run, every
repressor key (first character `$`) whose on-subset and off-subset are
both non-empty (the claim's "at least one true and at least one false
position"), with `high_off` non-zero and a positive quotient, is mapped to
the score whose value is the natural logarithm of
`low_on / high_off` = (minimum activity at true positions) /
(maximum activity at false positions). -/
theorem claim_C2_thm (logic : List (String × List Bool)) (activity : List (String × List ℚ))
    (k : String) (truth : List Bool) (act : List ℚ) (lo hi : ℚ)
    (scores : List (String × ScoreVal))
    (hok : score_repressors logic activity = Except.ok scores)
    (hnd : (keysOf logic).Nodup)
    (hkl : logic.lookup k = some truth)
    (hka : activity.lookup k = some act)
    (hd : strHeadDollar k = true)
    (hlen : ¬ truth.length < act.length)
    (hlo : listMin (onVals truth act) = some lo)
    (hhi : listMax (offVals truth act) = some hi)
    (hhi0 : hi ≠ 0)
    (hpos : 0 < lo / hi) :
    scores.lookup k = some (ScoreVal.finite lo hi) ∧
    ScoreVal.denote (ScoreVal.finite lo hi) = some (Real.log ((lo : ℝ) / (hi : ℝ))) := by
  constructor
  · rw [score_repressors] at hok
    by_cases hks : keySetEq (keysOf logic) (keysOf activity) = true
    · rw [if_pos hks] at hok
      have hscore : scoreKey ((logic.lookup k).getD []) ((activity.lookup k).getD []) =
          Except.ok (ScoreVal.finite lo hi) := by
        rw [hkl, hka]
        show scoreKey truth act = Except.ok (ScoreVal.finite lo hi)
        rw [scoreKey, if_neg hlen]
        simp only [hlo, hhi]
        rw [if_neg hhi0, if_pos ((ratioPos_iff lo hi).mpr hpos)]
      exact goScore_ok_lookup logic activity _ scores hok (hnd.filter _) k
        (ScoreVal.finite lo hi) (List.mem_filter.mpr ⟨lookup_some_mem_keysOf hkl, hd⟩) hscore
    · rw [if_neg hks] at hok
      exact absurd hok (by simp)
  · show some (Real.log ((lo / hi : ℚ) : ℝ)) = _
    push_cast
    rfl

/-- Witness for C2: the spec's example — truth row `[T, F, T, F]`,
activity row `[5, 1, 6, 1/2]` — yields `low_on = 5`, `high_off = 1` and
the stored score `ln 5`. -/
theorem claim_C2_witness :
    ∃ scores,
      score_repressors [("$g1", [true, false, true, false])]
          [("$g1", [(5 : ℚ), 1, 6, Rat.mk' 1 2 (by decide) (Nat.coprime_one_left 2)])] =
        Except.ok scores ∧
      scores.lookup "$g1" = some (ScoreVal.finite 5 1) ∧
      ScoreVal.denote (ScoreVal.finite 5 1) = some (Real.log 5) := by
  refine ⟨[("$g1", ScoreVal.finite 5 1)], by decide, ?_, ?_⟩
  · exact (claim_C2_thm [("$g1", [true, false, true, false])]
      [("$g1", [(5 : ℚ), 1, 6, Rat.mk' 1 2 (by decide) (Nat.coprime_one_left 2)])]
      "$g1" [true, false, true, false]
      [(5 : ℚ), 1, 6, Rat.mk' 1 2 (by decide) (Nat.coprime_one_left 2)]
      5 1 [("$g1", ScoreVal.finite 5 1)]
      (by decide) (by decide) rfl rfl rfl (by decide) (by decide) (by decide)
      (by decide) (by norm_num)).1
  · show some (Real.log ((5 / 1 : ℚ) : ℝ)) = some (Real.log 5)
    norm_num

/-- Claim C3, amended (the claim as stated is refuted by
`claim_C3_cex`): for a sensor document following the documented naming
convention (each `input_sensors` row is named `<signal>_sensor`), pruning
to a subset S of the available signals and reading the pruned document
yields a SUPERSET of S whose members are all available signals — every
selected signal is kept and nothing outside the document appears — but not
necessarily exactly S: the removal-while-iterating loop can skip a row, so
an unselected signal may survive (see the counterexample). -/
theorem claim_C3_thm (doc : List SensorRow) (S : List String)
    (hconv : ∀ r ∈ doc, r.collection = "input_sensors" →
      r.name = firstField r.name ++ "_sensor")
    (hS : ∀ s ∈ S, s ∈ get_input_signals doc) :
    (∀ s ∈ S, s ∈ get_input_signals (pruneAll doc S)) ∧
    (∀ s ∈ get_input_signals (pruneAll doc S), s ∈ get_input_signals doc) := by
  constructor
  · intro s hs
    obtain ⟨r, hrdoc, hr⟩ := List.mem_filterMap.mp (hS s hs)
    by_cases hcol : r.collection = "input_sensors"
    · rw [if_pos hcol] at hr
      have hreq : firstField r.name = s := Option.some.inj hr
      have hname : r.name = s ++ "_sensor" := by
        rw [hconv r hrdoc hcol, hreq]
      have hql : r.name ∈ queryList "_sensor" S := by
        rw [hname, queryList]
        exact List.mem_map_of_mem _ hs
      have h1 : shouldRemove (queryList "_sensor" S) "input_sensors" r = false := by
        rw [shouldRemove]
        have hc : (queryList "_sensor" S).contains r.name = true := by
          rw [List.contains, List.elem_eq_mem]
          simpa using hql
        rw [hc]
        simp
      have h2 : shouldRemove (queryList "_sensor_model" S) "models" r = false := by
        rw [shouldRemove, hcol]
        rw [show (("input_sensors" : String) == "models") = false from by decide]
        rw [Bool.false_and]
      have h3 : shouldRemove (queryList "_sensor_structure" S) "structures" r = false := by
        rw [shouldRemove, hcol]
        rw [show (("input_sensors" : String) == "structures") = false from by decide]
        rw [Bool.false_and]
      exact List.mem_filterMap.mpr
        ⟨r, mem_pruneAll doc S h1 h2 h3 hrdoc, by rw [if_pos hcol, hreq]⟩
    · rw [if_neg hcol] at hr
      exact absurd hr (by simp)
  · intro s hs
    exact (((pruneAll_sublist doc S).filterMap _).subset) hs

/-- Witness for C3: for a single-sensor document, pruning to `["a"]` keeps
the signal `a` readable from the pruned document. -/
theorem claim_C3_witness :
    "a" ∈ get_input_signals (pruneAll [⟨"input_sensors", "a_sensor", "pa"⟩] ["a"]) :=
  (claim_C3_thm [⟨"input_sensors", "a_sensor", "pa"⟩] ["a"]
    (by decide) (by decide)).1 "a" (by decide)

/-- Counterexample for C3 as stated: three adjacent `input_sensors` rows
`a, b, c`, pruned to the subset `["c"]`.  Removing row `a` during
iteration shifts row `b` into the current slot and the iterator skips it,
so `b` survives: reading the pruned document yields `["b", "c"]`, not the
set `{"c"}`. -/
theorem claim_C3_cex :
    set_input_signals
        [⟨"input_sensors", "a_sensor", "pa"⟩, ⟨"input_sensors", "b_sensor", "pb"⟩,
          ⟨"input_sensors", "c_sensor", "pc"⟩]
        ["c"] "custom_input.input.json" "orig.input.json" true =
      Except.ok ([⟨"input_sensors", "b_sensor", "pb"⟩, ⟨"input_sensors", "c_sensor", "pc"⟩],
        "custom_input.input.json") ∧
    get_input_signals
        [⟨"input_sensors", "b_sensor", "pb"⟩, ⟨"input_sensors", "c_sensor", "pc"⟩] =
      ["b", "c"] ∧
    ("b" : String) ∉ (["c"] : List String) :=
  ⟨by decide, by decide, by decide⟩

/-- Claim C4, amended (the claim as stated is refuted by
`claim_C4_cex`): a mismatch between the key SETS of `logic_dict` and
`activity_dict` (even a single key) is a hard error raised to the caller;
per-key sequence-length mismatches are NOT checked (see the
counterexample: a shorter activity row is silently accepted). -/
theorem claim_C4_thm (l : List (String × List Bool)) (a : List (String × List ℚ))
    (h : keySetEq (keysOf l) (keysOf a) = false) :
    score_repressors l a = Except.error CelloErr.keysMismatch := by
  rw [score_repressors, if_neg]
  rw [h]
  exact Bool.false_ne_true

/-- Witness for C4: the claim's own example — logic keys
`$g1, in0`, activity keys `$g1` — raises the key-mismatch error. -/
theorem claim_C4_witness :
    score_repressors [("$g1", [true]), ("in0", [false])] [("$g1", [(1 : ℚ)])] =
      Except.error CelloErr.keysMismatch :=
  claim_C4_thm _ _ (by decide)

/-- Counterexample for C4 as stated: equal key sets but a per-key length
mismatch (truth row of length 4, activity row of length 2) is silently
accepted and scored, not rejected with an error. -/
theorem claim_C4_cex :
    score_repressors [("$g1", [true, false, true, false])] [("$g1", [(5 : ℚ), 1])] =
      Except.ok [("$g1", ScoreVal.finite 5 1)] ∧
    ([true, false, true, false] : List Bool).length ≠ ([(5 : ℚ), 1] : List ℚ).length :=
  ⟨by decide, by decide⟩

/-- Claim C5, amended (the claim as stated is refuted by
`claim_C5_cex`): a repressor key whose truth row is all true (empty
off-subset; the empty on-subset case is symmetric) makes the whole scoring
call raise an error — no defaulted score of 0 and no silent skip.  The
`high_off = 0` half of the original claim is false: numpy float division
produces an infinite score that is stored silently. -/
theorem claim_C5_thm (logic : List (String × List Bool)) (activity : List (String × List ℚ))
    (k : String) (truth : List Bool)
    (hkl : logic.lookup k = some truth)
    (hd : strHeadDollar k = true)
    (ht : truth.all (fun b => b) = true) :
    ∃ e, score_repressors logic activity = Except.error e := by
  by_cases hks : keySetEq (keysOf logic) (keysOf activity) = true
  · rw [score_repressors, if_pos hks]
    apply goScore_err_of_mem logic activity _ k
    · exact List.mem_filter.mpr ⟨lookup_some_mem_keysOf hkl, hd⟩
    · rw [hkl]
      exact scoreKey_error_of_all_true truth _ ht
  · exact ⟨CelloErr.keysMismatch, by rw [score_repressors, if_neg hks]⟩

/-- Witness for C5: an all-true truth row for repressor key `$r` aborts
scoring with an error. -/
theorem claim_C5_witness :
    ∃ e, score_repressors [("$r", [true, true])] [("$r", [(2 : ℚ), 3])] = Except.error e :=
  claim_C5_thm [("$r", [true, true])] [("$r", [(2 : ℚ), 3])] "$r" [true, true]
    rfl rfl (by decide)

/-- Counterexample for C5 as stated: a repressor key with `high_off = 0`
(and positive `low_on`) does NOT produce an error — the infinite score is
silently recorded and the call succeeds. -/
theorem claim_C5_cex :
    score_repressors [("$r", [true, true, true, false])] [("$r", [(5 : ℚ), 6, 7, 0])] =
      Except.ok [("$r", ScoreVal.infScore)] ∧
    listMax (offVals [true, true, true, false] [(5 : ℚ), 6, 7, 0]) = some 0 :=
  ⟨by decide, by decide⟩

/-- Claim C6, amended (the claim as stated is refuted by
`claim_C6_cex`): `_parse_log_file` scans the lines in order for the FIRST
line containing the marker and returns the value `float` parses from the
last SINGLE-SPACE-delimited chunk of that line (the chunk carries the
trailing newline, which `float` tolerates); when no line contains the
marker it raises the score-not-found error.  A marker line whose final
space-chunk is not a float literal raises a ValueError instead of
returning the final whitespace-delimited token. -/
theorem claim_C6_thm (lines : List String) :
    (∀ (line : String) (q : ℚ), lines.find? containsMarker = some line →
      pyFloat? (lastSpaceTok line) = some q →
      parse_log_file lines = Except.ok q) ∧
    (lines.find? containsMarker = none →
      parse_log_file lines = Except.error LogErr.scoreNotFound) := by
  constructor
  · intro line q hf hp
    rw [parse_log_file]
    simp only [hf, hp]
  · intro hf
    rw [parse_log_file]
    simp only [hf]

/-- Witness for C6: with two marker lines the FIRST one (score 15) is
returned, and a marker-free log raises the score-not-found error. -/
theorem claim_C6_witness :
    parse_log_file ["begin\n", "x SimulatedAnnealing - Score: 15\n",
        "x SimulatedAnnealing - Score: 99\n"] = Except.ok 15 ∧
    parse_log_file ["no marker here\n"] = Except.error LogErr.scoreNotFound :=
  ⟨(claim_C6_thm ["begin\n", "x SimulatedAnnealing - Score: 15\n",
      "x SimulatedAnnealing - Score: 99\n"]).1
      "x SimulatedAnnealing - Score: 15\n" 15 (by decide) (by decide),
   (claim_C6_thm ["no marker here\n"]).2 (by decide)⟩

/-- Counterexample for C6 as stated: on a marker line ending in a space,
the final whitespace-delimited token is `0.32`, but the code splits on
single spaces, takes the chunk `"\n"`, and `float` raises a ValueError —
the call does not return `0.32`. -/
theorem claim_C6_cex :
    parse_log_file ["x SimulatedAnnealing - Score: 0.32 \n"] = Except.error LogErr.valueError ∧
    (Except.error LogErr.valueError : Except LogErr ℚ) ≠ Except.ok ((32 : ℚ) / 100) :=
  ⟨rfl, by simp⟩

/-- Claim C7, amended (the claim as stated is refuted by
`claim_C7_cex`): for each key of interest, the resolver maps the key to
the `deviceName` of the LAST entry of `nodes` whose `name` equals the key
(each match overwrites the previous one; equivalently, the first match in
the reversed sequence), and a key with no matching entry is simply absent
from the result mapping — no error is raised. -/
theorem claim_C7_thm (keys : List String) (nodes : List NetNode) (k : String)
    (hnd : keys.Nodup) (hk : k ∈ keys) :
    (map_symbolic keys nodes).lookup k =
      (nodes.reverse.find? (fun n => k == n.name)).map NetNode.deviceName :=
  (lookup_map_symbolic nodes k keys hnd hk).trans (lastMatchDevice_eq k nodes)

/-- Witness for C7: with two nodes both named `a`, the key `a` resolves to
the device name of the LAST one. -/
theorem claim_C7_witness :
    (map_symbolic ["a"] [⟨"a", "X", "p1"⟩, ⟨"a", "Y", "p2"⟩]).lookup "a" = some "Y" :=
  (claim_C7_thm ["a"] [⟨"a", "X", "p1"⟩, ⟨"a", "Y", "p2"⟩] "a"
    (by decide) (by decide)).trans (by decide)

/-- Counterexample for C7 as stated: two entries share the name `a`; the
claim says the FIRST entry's `deviceName` (`X`) wins, but the code records
the last one (`Y`). -/
theorem claim_C7_cex :
    map_symbolic ["a"] [⟨"a", "X", "p1"⟩, ⟨"a", "Y", "p2"⟩] = [("a", "Y")] ∧
    ("Y" : String) ≠ "X" :=
  ⟨rfl, by decide⟩

/-- Claim C8, amended (the claim as stated is refuted by
`claim_C8_cex`): the logic/activity CSV locator raises the missing-file
error on zero matches and the ambiguous-file error on several matches; the
LOG locator, however, raises the multiple-match (ambiguous) error whenever
the number of matches differs from one — including on an empty directory,
where it does NOT raise the missing-file error the tabular loaders
raise. -/
theorem claim_C8_thm (files : List String) :
    (files = [] → locate_result_csv files = Except.error LocErr.missingFile) ∧
    (2 ≤ files.length → locate_result_csv files = Except.error LocErr.ambiguousFile) ∧
    (files.length ≠ 1 → locate_log files = Except.error LocErr.ambiguousFile) ∧
    (∀ f, files = [f] → locate_result_csv files = Except.ok f ∧ locate_log files = Except.ok f) := by
  refine ⟨?_, ?_, ?_, ?_⟩
  · rintro rfl; rfl
  · intro h2
    match files, h2 with
    | f :: g :: rest, _ => rfl
  · intro h1
    rw [locate_log, if_pos]
    omega
  · rintro f rfl
    exact ⟨rfl, rfl⟩

/-- Witness for C8: an empty directory gives the missing-file error for
the CSV locator but the ambiguous error for the log locator; two matches
give the ambiguous error. -/
theorem claim_C8_witness :
    locate_result_csv [] = Except.error LocErr.missingFile ∧
    locate_log [] = Except.error LocErr.ambiguousFile ∧
    locate_result_csv ["a_logic.csv", "b_logic.csv"] = Except.error LocErr.ambiguousFile :=
  ⟨(claim_C8_thm []).1 rfl, (claim_C8_thm []).2.2.1 (by decide),
   (claim_C8_thm ["a_logic.csv", "b_logic.csv"]).2.1 (by decide)⟩

/-- Counterexample for C8 as stated: on zero matches the log locator
raises the AMBIGUOUS (multiple-match) error, not the missing-file error
the claim requires. -/
theorem claim_C8_cex :
    locate_log [] = Except.error LocErr.ambiguousFile ∧
    LocErr.ambiguousFile ≠ LocErr.missingFile :=
  ⟨rfl, by decide⟩

/-- Claim C9 (code_bug): for the input text `42` — which contains no comma
at all — the flag-set reader does not fail: `rfind` returns -1, the slice
`[:-1]` silently drops the final character, and the parser happily returns
the number 4 instead of 42.  The spec requires a defined failure here, not
silent corruption. -/
theorem claim_C9_thm :
    fix_input_text "42" true = "4" ∧
    parseDoc "4" = some (Doc.num 4) ∧
    parseDoc "42" = some (Doc.num 42) ∧
    (some (Doc.num 4) : Option Doc) ≠ some (Doc.num 42) :=
  ⟨rfl, rfl, rfl, by simp⟩

/-- Claim C10 (confirmed): when any requested signal is not among the
available input signals, `set_input_signals` raises an error (carrying the
first such signal) before the output file is written and before
`input_sensors` is reassigned — the error result carries neither a pruned
document nor a new configuration value, so the query state is
unchanged. -/
theorem claim_C10_thm (doc : List SensorRow) (input_signals : List String)
    (fn cur : String) (mutate : Bool) (s : String)
    (hs : s ∈ input_signals) (hna : s ∉ get_input_signals doc) :
    ∃ bad, bad ∈ input_signals ∧ bad ∉ get_input_signals doc ∧
      set_input_signals doc input_signals fn cur mutate = Except.error bad := by
  have hsome : (input_signals.find? (fun x => !((get_input_signals doc).contains x))).isSome = true := by
    rw [List.find?_isSome]
    refine ⟨s, hs, ?_⟩
    rw [Bool.not_eq_true']
    rw [List.contains]
    rw [List.elem_eq_mem]
    simpa using hna
  obtain ⟨bad, hfind⟩ := Option.isSome_iff_exists.mp hsome
  have hbadp := List.find?_some hfind
  have hbadm := List.mem_of_find?_eq_some hfind
  refine ⟨bad, hbadm, ?_, ?_⟩
  · intro hmem
    have hcf : (get_input_signals doc).contains bad = false := by
      cases hcb : (get_input_signals doc).contains bad
      · rfl
      · rw [hcb] at hbadp
        exact absurd hbadp (by decide)
    rw [List.contains, List.elem_eq_mem] at hcf
    simp at hcf
    exact hcf hmem
  · rw [set_input_signals]
    simp only [hfind]

/-- Witness for C10: requesting the unavailable signal `zz` makes the call
fail with that signal, writing nothing. -/
theorem claim_C10_witness :
    ∃ bad, bad ∈ ["zz"] ∧ bad ∉ get_input_signals [⟨"input_sensors", "a_sensor", "pa"⟩] ∧
      set_input_signals [⟨"input_sensors", "a_sensor", "pa"⟩] ["zz"]
        "custom_input.input.json" "orig.input.json" true = Except.error bad :=
  claim_C10_thm [⟨"input_sensors", "a_sensor", "pa"⟩] ["zz"]
    "custom_input.input.json" "orig.input.json" true "zz" (by decide) (by decide)

end Cello
